import Mathlib

/-!
Shallow embedding of `src/pynotion/__init__.py` (the pynotion client library).

Python dictionaries are modelled as ordered association lists
`List (String × α)` with Python `__setitem__` semantics (`pyInsert`: replace
in place on an existing key, append otherwise).  Dynamically typed Python
values are modelled by the inductive `PyVal`; Python truthiness by
`PyVal.truthy`.  Raising `ValueError` / `TypeError` is modelled with
`Except PyErr` (the exception messages are elided; only the exception kind
matters to the specification).  Network effects are modelled by returning the
`HttpRequest` the operation would send; the module-level configuration value
`NOTION_API_KEY` (read from the environment) is an explicit `Option String`
parameter, while the other module constants are the string literals from the
source.
-/

namespace Pynotion

/-- Calendar date and time of day, modelling a Python `datetime.datetime`
value (components as stored: year, month, day, hour, minute, second,
microsecond). -/
structure PyDatetime where
  year : Nat
  month : Nat
  day : Nat
  hour : Nat
  minute : Nat
  second : Nat
  microsecond : Nat
deriving DecidableEq, Repr

/-- The closed two-member enumeration `SortDirection` from the source. -/
inductive SortDirection where
  | ascending
  | descending
deriving DecidableEq, Repr

/-- A dynamically typed Python value, covering the kinds of values the
pynotion code can receive or build: strings, integers, datetimes, `None`,
booleans, `SortDirection` members, dictionaries (ordered association lists
keyed by strings, as built by the library) and lists. -/
inductive PyVal where
  | vstr : String → PyVal
  | vint : Int → PyVal
  | vdatetime : PyDatetime → PyVal
  | vnone : PyVal
  | vbool : Bool → PyVal
  | vsort : SortDirection → PyVal
  | vdict : List (String × PyVal) → PyVal
  | vlist : List PyVal → PyVal

/-- Python truthiness (`bool(x)`): empty string, zero, `None`, `False`, and
empty collections are falsy; `datetime` values and enum members are always
truthy. -/
def PyVal.truthy : PyVal → Bool
  | .vstr s => !(s == "")
  | .vint n => !(n == 0)
  | .vdatetime _ => true
  | .vnone => false
  | .vbool b => b
  | .vsort _ => true
  | .vdict d => !d.isEmpty
  | .vlist l => !l.isEmpty

/-- `isinstance(v, str)`. -/
def PyVal.isStr : PyVal → Bool
  | .vstr _ => true
  | _ => false

/-- `isinstance(v, datetime)`. -/
def PyVal.isDatetime : PyVal → Bool
  | .vdatetime _ => true
  | _ => false

/-- `isinstance(v, SortDirection)`. -/
def PyVal.isSortDirection : PyVal → Bool
  | .vsort _ => true
  | _ => false

/-- The exception kinds the library raises locally.  Messages are elided. -/
inductive PyErr where
  | valueError
  | typeError
deriving DecidableEq, Repr

/-- Python dict `d[k] = v`: if the key is present, replace its value in
place (keeping the key position); otherwise append the new pair at the
end.  This is the insertion-ordered dictionary semantics of CPython. -/
def pyInsert {α : Type} : List (String × α) → String → α → List (String × α)
  | [], k, v => [(k, v)]
  | (a, b) :: t, k, v => if a == k then (k, v) :: t else (a, b) :: pyInsert t k v

/-- Python dict lookup `d[k]` (first matching key). -/
def dictLookup {α : Type} : List (String × α) → String → Option α
  | [], _ => none
  | (a, b) :: t, k => if a == k then some b else dictLookup t k

/-- The keys of a dictionary, in order. -/
def dictKeys {α : Type} (d : List (String × α)) : List String :=
  d.map Prod.fst

/-- Python dict union `a | b` (PEP 584): a freshly constructed dict holding
the entries of `a` updated, key by key in order, with the entries of `b`;
on a common key the value from `b` (the right operand) wins. -/
def pyDictUnion (a b : List (String × PyVal)) : List (String × PyVal) :=
  b.foldl (fun m kv => pyInsert m kv.1 kv.2) a

/-- Rendering of an optional string in a Python f-string: `None` prints as
the four characters `None`. -/
def pyRenderOptStr : Option String → String
  | none => "None"
  | some s => s

/-- Truthiness of an optional string argument (`None` and `""` are falsy). -/
def pyTruthyOptStr : Option String → Bool
  | none => false
  | some s => !(s == "")

/-- Python `x or y` on an optional string `x`: yields `x` when `x` is truthy
(a non-empty string), otherwise `y`. -/
def pyOrOptStr (a b : Option String) : Option String :=
  if pyTruthyOptStr a then a else b

/-- The frozen dataclass `NotionPageProperty` (a name together with a
value). -/
structure NotionPageProperty where
  name : String
  value : PyVal

/-- Module constant `NOTION_VERSION`. -/
def NOTION_VERSION : String := "2022-06-28"

/-- Module constant `NOTION_API_BASE_URL`. -/
def NOTION_API_BASE_URL : String := "https://api.notion.com"

/-- Module constant `NOTION_API_VERSION`. -/
def NOTION_API_VERSION : String := "v1"

/-- Splitting a character list on the dot character, accumulator style:
models Python `str.split(".")`. -/
def splitDotAux : List Char → List Char → List String
  | [], acc => [String.mk acc.reverse]
  | c :: rest, acc =>
      if c = '.' then String.mk acc.reverse :: splitDotAux rest []
      else splitDotAux rest (c :: acc)

/-- Python `s.split(".")`. -/
def pySplitDot (s : String) : List String :=
  splitDotAux s.data []

/-- `Enum.__str__` for `SortDirection` members: the qualified member name
`SortDirection.<member>`. -/
def SortDirection.enum_str : SortDirection → String
  | .ascending => "SortDirection.ascending"
  | .descending => "SortDirection.descending"

/-- The overridden `SortDirection.__str__`:
`super().__str__().split(".")[-1]`. -/
def SortDirection.render (d : SortDirection) : String :=
  (pySplitDot d.enum_str).getLastD ""

/-- `build_single_sorter(property_name, direction)`.  Validation order as in
the source: first the `isinstance(direction, SortDirection)` check
(`TypeError`), then the emptiness check on `property_name` (`ValueError`).
The source line `direction = direction or SortDirection.ascending` is the
identity because enum members are always truthy, and is therefore not
represented.  Output: `{"sorts": [{"property": ..., "direction":
str(direction)}]}` built by appending one entry to an empty list. -/
def build_single_sorter (property_name : String) (direction : PyVal) :
    Except PyErr PyVal :=
  match direction with
  | .vsort d =>
      if property_name == "" then .error .valueError
      else
        .ok (.vdict [("sorts", .vlist [.vdict
          [("property", .vstr property_name),
           ("direction", .vstr d.render)]])])
  | _ => .error .typeError

/-- `date.isoformat` zero-pads the month and day to two digits. -/
def pad2 (n : Nat) : String :=
  if n < 10 then "0" ++ toString n else toString n

/-- `date.isoformat` zero-pads the year to four digits. -/
def pad4 (n : Nat) : String :=
  if n < 10 then "000" ++ toString n
  else if n < 100 then "00" ++ toString n
  else if n < 1000 then "0" ++ toString n
  else toString n

/-- `value.date().isoformat()`: the calendar date of a datetime value in
ISO-8601 `YYYY-MM-DD` form; the time-of-day fields do not occur. -/
def PyDatetime.dateIsoformat (d : PyDatetime) : String :=
  pad4 d.year ++ "-" ++ pad2 d.month ++ "-" ++ pad2 d.day

/-- `build_equal_filter(property_name, value)`: reject a falsy
`property_name`, then a falsy `value`, with `ValueError`; then build
`{"filter": {"property": property_name}}` and extend the inner dict with a
`"date"` branch when the value is a datetime and with a `"rich_text"`
branch when it is a string (two independent `isinstance` checks in the
source; a value is never both). -/
def build_equal_filter (property_name : String) (value : PyVal) :
    Except PyErr PyVal :=
  if property_name == "" then .error .valueError
  else if !value.truthy then .error .valueError
  else
    let base : List (String × PyVal) := pyInsert [] "property" (.vstr property_name)
    let withDate : List (String × PyVal) :=
      match value with
      | .vdatetime d =>
          pyInsert base "date" (.vdict [("equals", .vstr d.dateIsoformat)])
      | _ => base
    let withRich : List (String × PyVal) :=
      match value with
      | .vstr s =>
          pyInsert withDate "rich_text" (.vdict [("equals", .vstr s)])
      | _ => withDate
    .ok (.vdict [("filter", .vdict withRich)])

/-- The dictionary-building loop of `build_update_properties`: starting from
the empty dict, set `ret["properties"][p.name] = p.value` for each property
in order. -/
def upd_fold (ps : List NotionPageProperty) : List (String × PyVal) :=
  ps.foldl (fun m p => pyInsert m p.name p.value) []

/-- `build_update_properties(properties)`: reject the empty list with
`ValueError`, otherwise return `{"properties": {...}}` with the loop-built
inner mapping. -/
def build_update_properties (ps : List NotionPageProperty) :
    Except PyErr PyVal :=
  if ps.length == 0 then .error .valueError
  else .ok (.vdict [("properties", .vdict (upd_fold ps))])

/-- `_log_headers(headers)`: the headers dict without its `Authorization`
key. -/
def log_headers (headers : List (String × String)) : List (String × String) :=
  headers.filter (fun kv => !(kv.1 == "Authorization"))

/-- `build_headers(api_key)`.  `configKey` is the module-level
`NOTION_API_KEY` read from the environment (`none` when the variable is
absent).  The bearer value is the f-string rendering of
`api_key or NOTION_API_KEY`. -/
def build_headers (configKey : Option String) (api_key : Option String) :
    List (String × String) :=
  [("Authorization", "Bearer " ++ pyRenderOptStr (pyOrOptStr api_key configKey)),
   ("Notion-Version", NOTION_VERSION),
   ("Content-Type", "application/json")]

/-- `build_url(route)`: `"/".join([base, version, route])`. -/
def build_url (route : String) : String :=
  "/".intercalate [NOTION_API_BASE_URL, NOTION_API_VERSION, route]

/-- The single HTTP request a transport operation performs: method, url,
JSON body and headers. -/
structure HttpRequest where
  method : String
  url : String
  body : List (String × PyVal)
  headers : List (String × String)

/-- `query_notion_database(database_id, filter, sorter, api_key)`, functional
view: validate `database_id` (falsy, i.e. `None` or empty, raises
`ValueError`), then build headers, merge `filter | sorter` into the payload,
build the url and perform one POST.  The value returned models the request
sent; response handling is outside the embedding. -/
def query_notion_database (configKey : Option String)
    (database_id : Option String) (filter sorter : List (String × PyVal))
    (api_key : Option String) : Except PyErr HttpRequest :=
  if !pyTruthyOptStr database_id then .error .valueError
  else
    let headers := build_headers configKey api_key
    let payload := pyDictUnion filter sorter
    let url := build_url ("databases/" ++ pyRenderOptStr database_id ++ "/query")
    .ok ⟨"POST", url, payload, headers⟩

/-- The network calls `query_notion_database` performs: exactly the one POST
of the success path, and none when validation raises (the only `ValueError`
is raised before the `requests.post` line). -/
def query_network_calls (configKey : Option String)
    (database_id : Option String) (filter sorter : List (String × PyVal))
    (api_key : Option String) : List HttpRequest :=
  match query_notion_database configKey database_id filter sorter api_key with
  | .ok r => [r]
  | .error _ => []

/-- A heap of Python dict objects: addresses below `next` are allocated.
Used to model aliasing and mutation of the `filter` / `sorter` arguments of
`query_notion_database` (which Python passes by reference). -/
structure DictHeap where
  heap : Nat → List (String × PyVal)
  next : Nat

/-- `query_notion_database`, heap view: the `filter` and `sorter` arguments
are heap addresses `fa`, `sa`.  The body `filter | sorter` allocates a fresh
dict (PEP 584) at the next free address; no statement of the source writes
through `fa` or `sa`. -/
def query_notion_database_heap (configKey : Option String)
    (database_id : Option String) (fa sa : Nat) (st : DictHeap)
    (api_key : Option String) : DictHeap × Except PyErr HttpRequest :=
  if !pyTruthyOptStr database_id then (st, .error .valueError)
  else
    let headers := build_headers configKey api_key
    let payload := pyDictUnion (st.heap fa) (st.heap sa)
    let st' : DictHeap :=
      ⟨fun a => if a = st.next then payload else st.heap a, st.next + 1⟩
    let url := build_url ("databases/" ++ pyRenderOptStr database_id ++ "/query")
    (st', .ok ⟨"POST", url, payload, headers⟩)

/-- Left-biased choice on options, written out as a total function so that
its equations hold by `rfl`. -/
def oalt {α : Type} : Option α → Option α → Option α
  | some v, _ => some v
  | none, b => b

@[simp] theorem oalt_some {α : Type} (v : α) (b : Option α) :
    oalt (some v) b = some v := rfl

@[simp] theorem oalt_none {α : Type} (b : Option α) : oalt none b = b := rfl

@[simp] theorem oalt_none_right {α : Type} (a : Option α) : oalt a none = a := by
  cases a <;> rfl

/-- The value recorded for key `k` by the last element of `xs` whose key is
`k` (later elements take precedence, as in the update loops of the
source). -/
def lastKV {β α : Type} (key : β → String) (val : β → α) :
    List β → String → Option α
  | [], _ => none
  | x :: t, k =>
      oalt (lastKV key val t k) (if key x == k then some (val x) else none)

theorem dictLookup_pyInsert {α : Type} (d : List (String × α)) (k k' : String) (v : α) :
    dictLookup (pyInsert d k v) k' = if k' = k then some v else dictLookup d k' := by
  induction d with
  | nil =>
      by_cases h : k' = k
      · subst h; simp [pyInsert, dictLookup]
      · simp [pyInsert, dictLookup, beq_iff_eq, h, Ne.symm h]
  | cons hd tl ih =>
      obtain ⟨a, b⟩ := hd
      by_cases hak : a = k
      · subst hak
        by_cases h : k' = a
        · subst h; simp [pyInsert, dictLookup]
        · simp [pyInsert, dictLookup, beq_iff_eq, h, Ne.symm h]
      · by_cases h : k' = a
        · subst h
          simp [pyInsert, dictLookup, beq_iff_eq, hak, Ne.symm hak]
        · simp [pyInsert, dictLookup, beq_iff_eq, hak, Ne.symm h, ih]

theorem mem_dictKeys_pyInsert {α : Type} (d : List (String × α)) (k k' : String) (v : α) :
    k' ∈ dictKeys (pyInsert d k v) ↔ k' = k ∨ k' ∈ dictKeys d := by
  induction d with
  | nil => simp [pyInsert, dictKeys]
  | cons hd tl ih =>
      obtain ⟨a, b⟩ := hd
      by_cases hak : a = k
      · subst hak; simp [pyInsert, dictKeys]
      · simp only [pyInsert, beq_iff_eq, hak, if_false, dictKeys, List.map_cons,
          List.mem_cons] at *
        rw [ih]
        tauto

theorem dictLookup_foldl_pyInsert {β α : Type} (key : β → String) (val : β → α) :
    ∀ (xs : List β) (init : List (String × α)) (k : String),
      dictLookup (xs.foldl (fun m x => pyInsert m (key x) (val x)) init) k
        = oalt (lastKV key val xs k) (dictLookup init k) := by
  intro xs
  induction xs with
  | nil => intro init k; simp [lastKV]
  | cons x t ih =>
      intro init k
      simp only [List.foldl_cons, lastKV]
      rw [ih, dictLookup_pyInsert]
      cases hx : lastKV key val t k <;> by_cases hk : key x = k
      · simp [hx, hk]
      · simp [hx, hk, beq_iff_eq, Ne.symm hk]
      · simp [hx, hk]
      · simp [hx, hk, beq_iff_eq, Ne.symm hk]

theorem mem_dictKeys_foldl_pyInsert {β α : Type} (key : β → String) (val : β → α) :
    ∀ (xs : List β) (init : List (String × α)) (k : String),
      k ∈ dictKeys (xs.foldl (fun m x => pyInsert m (key x) (val x)) init)
        ↔ (k ∈ dictKeys init ∨ k ∈ xs.map key) := by
  intro xs
  induction xs with
  | nil => intro init k; simp
  | cons x t ih =>
      intro init k
      simp only [List.foldl_cons, List.map_cons, List.mem_cons]
      rw [ih, mem_dictKeys_pyInsert]
      tauto

theorem lastKV_eq_none_of_not_mem {β α : Type} (key : β → String) (val : β → α)
    (xs : List β) (k : String) (h : k ∉ xs.map key) :
    lastKV key val xs k = none := by
  induction xs with
  | nil => rfl
  | cons x t ih =>
      simp only [List.map_cons, List.mem_cons] at h
      push_neg at h
      simp only [lastKV]
      rw [ih h.2]
      simp [beq_iff_eq, Ne.symm h.1]

theorem lastKV_eq_dictLookup_of_nodup {α : Type} :
    ∀ (d : List (String × α)) (k : String), (dictKeys d).Nodup →
      lastKV Prod.fst Prod.snd d k = dictLookup d k := by
  intro d
  induction d with
  | nil => intro k _; rfl
  | cons hd t ih =>
      intro k hnd
      obtain ⟨a, b⟩ := hd
      simp only [dictKeys, List.map_cons, List.nodup_cons] at hnd
      simp only [lastKV]
      by_cases hak : a = k
      · subst hak
        rw [lastKV_eq_none_of_not_mem _ _ _ _ hnd.1]
        simp [dictLookup]
      · simp only [dictLookup, beq_iff_eq, hak, if_false]
        rw [← ih k hnd.2]
        simp [beq_iff_eq, hak, oalt_none_right]

theorem find?_append_option {β : Type} (p : β → Bool) :
    ∀ (l₁ l₂ : List β), (l₁ ++ l₂).find? p = oalt (l₁.find? p) (l₂.find? p) := by
  intro l₁
  induction l₁ with
  | nil => intro l₂; simp
  | cons x t ih =>
      intro l₂
      by_cases hx : p x
      · simp [List.find?, hx]
      · simp only [List.cons_append, List.find?]
        simp only [hx]
        exact ih l₂

theorem lastKV_eq_reverse_find {β α : Type} (key : β → String) (val : β → α) :
    ∀ (xs : List β) (k : String),
      lastKV key val xs k
        = (xs.reverse.find? (fun x => key x == k)).map val := by
  intro xs
  induction xs with
  | nil => intro k; rfl
  | cons x t ih =>
      intro k
      simp only [lastKV]
      rw [ih, List.reverse_cons, find?_append_option]
      cases hf : t.reverse.find? (fun x => key x == k) with
      | some y => simp [hf]
      | none =>
          by_cases hk : key x == k
          · simp [hf, List.find?, hk]
          · have hk' : (key x == k) = false := by simpa using hk
            simp [hf, List.find?, hk']

theorem dictLookup_isSome_of_mem {α : Type} :
    ∀ (d : List (String × α)) (k : String), k ∈ dictKeys d →
      ∃ v, dictLookup d k = some v := by
  intro d
  induction d with
  | nil => intro k h; simp [dictKeys] at h
  | cons hd t ih =>
      intro k h
      obtain ⟨a, b⟩ := hd
      by_cases hak : a = k
      · exact ⟨b, by simp [dictLookup, hak]⟩
      · simp only [dictKeys, List.map_cons, List.mem_cons] at h
        rcases h with h | h
        · exact absurd h.symm hak
        · obtain ⟨v, hv⟩ := ih k h
          exact ⟨v, by simp [dictLookup, beq_iff_eq, hak, hv]⟩

theorem dictLookup_eq_none_of_not_mem {α : Type} :
    ∀ (d : List (String × α)) (k : String), k ∉ dictKeys d →
      dictLookup d k = none := by
  intro d
  induction d with
  | nil => intro k _; rfl
  | cons hd t ih =>
      intro k h
      obtain ⟨a, b⟩ := hd
      simp only [dictKeys, List.map_cons, List.mem_cons] at h
      push_neg at h
      simp [dictLookup, beq_iff_eq, Ne.symm h.1, ih k h.2]

/-- C1: for every non-empty property name, `build_equal_filter` on a
date-time value returns the fragment with a `"date"` kind whose `"equals"`
value is the value's calendar date in ISO-8601 date form (which depends only
on the year, month and day, discarding the time of day), and on a non-empty
string value returns the fragment with a `"rich_text"` kind whose
`"equals"` value is the string itself. -/
theorem build_equal_filter_kinds :
    (∀ (property_name : String) (d : PyDatetime), property_name ≠ "" →
      build_equal_filter property_name (.vdatetime d)
        = .ok (.vdict [("filter", .vdict
            [("property", .vstr property_name),
             ("date", .vdict [("equals", .vstr d.dateIsoformat)])])])) ∧
    (∀ d d' : PyDatetime, d.year = d'.year → d.month = d'.month →
      d.day = d'.day → d.dateIsoformat = d'.dateIsoformat) ∧
    (∀ (property_name s : String), property_name ≠ "" → s ≠ "" →
      build_equal_filter property_name (.vstr s)
        = .ok (.vdict [("filter", .vdict
            [("property", .vstr property_name),
             ("rich_text", .vdict [("equals", .vstr s)])])])) := by
  refine ⟨?_, ?_, ?_⟩
  · intro pn d h
    have hb : (pn == "") = false := by simpa using h
    simp only [build_equal_filter, hb]
    rfl
  · intro d d' h1 h2 h3
    simp [PyDatetime.dateIsoformat, h1, h2, h3]
  · intro pn s h hs
    have hb : (pn == "") = false := by simpa using h
    have hsb : (s == "") = false := by simpa using hs
    simp only [build_equal_filter, PyVal.truthy, hb, hsb]
    rfl

/-- Witness for C1 at concrete inputs: a datetime with a nonzero time of day
yields its calendar date, and a string yields itself. -/
theorem build_equal_filter_kinds_witness :
    build_equal_filter "Date" (.vdatetime ⟨2023, 4, 29, 13, 45, 10, 7⟩)
        = .ok (.vdict [("filter", .vdict
            [("property", .vstr "Date"),
             ("date", .vdict [("equals", .vstr "2023-04-29")])])]) ∧
    build_equal_filter "Habit" (.vstr "No Suggar")
        = .ok (.vdict [("filter", .vdict
            [("property", .vstr "Habit"),
             ("rich_text", .vdict [("equals", .vstr "No Suggar")])])]) :=
  ⟨build_equal_filter_kinds.1 "Date" ⟨2023, 4, 29, 13, 45, 10, 7⟩ (by decide),
   build_equal_filter_kinds.2.2 "Habit" "No Suggar" (by decide) (by decide)⟩

/-- C2: `build_equal_filter` raises `ValueError` on an empty property name
(whatever the value is), and, for a non-empty property name, on every falsy
value — in particular the empty string, the integer zero and `None`. -/
theorem build_equal_filter_rejects_empty :
    (∀ v : PyVal, build_equal_filter "" v = .error .valueError) ∧
    (∀ (property_name : String) (v : PyVal), property_name ≠ "" →
      v.truthy = false → build_equal_filter property_name v = .error .valueError) ∧
    (∀ property_name : String, property_name ≠ "" →
      build_equal_filter property_name (.vstr "") = .error .valueError ∧
      build_equal_filter property_name (.vint 0) = .error .valueError ∧
      build_equal_filter property_name .vnone = .error .valueError) := by
  have hmain : ∀ (property_name : String) (v : PyVal), property_name ≠ "" →
      v.truthy = false → build_equal_filter property_name v = .error .valueError := by
    intro pn v h hv
    have hb : (pn == "") = false := by simpa using h
    simp only [build_equal_filter, hb, hv]
    rfl
  exact ⟨fun v => rfl, hmain,
    fun pn h => ⟨hmain pn (.vstr "") h rfl, hmain pn (.vint 0) h rfl,
      hmain pn .vnone h rfl⟩⟩

/-- Witness for C2 at concrete inputs: `None` as value and an empty property
name both raise `ValueError`. -/
theorem build_equal_filter_rejects_empty_witness :
    build_equal_filter "Name" .vnone = .error .valueError ∧
    build_equal_filter "" (.vstr "x") = .error .valueError :=
  ⟨build_equal_filter_rejects_empty.2.1 "Name" .vnone (by decide) rfl,
   build_equal_filter_rejects_empty.1 (.vstr "x")⟩

/-- C3: `build_update_properties` raises `ValueError` on the empty list, and
on a non-empty list returns `{"properties": m}` where `m` gives each key the
value of the last entry of the list bearing that name (last write wins) and
has exactly the names occurring in the list as keys. -/
theorem build_update_properties_spec :
    (build_update_properties [] = .error .valueError) ∧
    (∀ ps : List NotionPageProperty, ps ≠ [] →
      build_update_properties ps
          = .ok (.vdict [("properties", .vdict (upd_fold ps))]) ∧
      (∀ k, dictLookup (upd_fold ps) k
          = ((ps.reverse.find? (fun p => p.name == k)).map NotionPageProperty.value)) ∧
      (∀ k, k ∈ dictKeys (upd_fold ps) ↔ k ∈ ps.map NotionPageProperty.name)) := by
  refine ⟨rfl, ?_⟩
  intro ps h
  have hlen : (ps.length == 0) = false := by
    cases ps with
    | nil => exact absurd rfl h
    | cons a t => rfl
  refine ⟨by simp only [build_update_properties, hlen]; rfl, ?_, ?_⟩
  · intro k
    calc dictLookup (upd_fold ps) k
        = oalt (lastKV (fun p : NotionPageProperty => p.name)
            (fun p : NotionPageProperty => p.value) ps k)
            (dictLookup ([] : List (String × PyVal)) k) :=
          dictLookup_foldl_pyInsert _ _ ps [] k
      _ = lastKV (fun p : NotionPageProperty => p.name)
            (fun p : NotionPageProperty => p.value) ps k := by
          simp [dictLookup]
      _ = ((ps.reverse.find? (fun p => p.name == k)).map NotionPageProperty.value) :=
          lastKV_eq_reverse_find _ _ ps k
  · intro k
    have h2 := mem_dictKeys_foldl_pyInsert
      (fun p : NotionPageProperty => p.name)
      (fun p : NotionPageProperty => p.value) ps [] k
    simpa [dictKeys] using h2

/-- Witness for C3 at a concrete input with a duplicated name: the later
entry wins and the mapping has exactly the one key. -/
theorem build_update_properties_spec_witness :
    build_update_properties [⟨"Streak", .vint 1⟩, ⟨"Streak", .vint 2⟩]
        = .ok (.vdict [("properties", .vdict [("Streak", .vint 2)])]) ∧
    dictLookup (upd_fold [⟨"Streak", .vint 1⟩, ⟨"Streak", .vint 2⟩]) "Streak"
        = some (.vint 2) :=
  ⟨(build_update_properties_spec.2 [⟨"Streak", .vint 1⟩, ⟨"Streak", .vint 2⟩]
      (List.cons_ne_nil _ _)).1,
   (build_update_properties_spec.2 [⟨"Streak", .vint 1⟩, ⟨"Streak", .vint 2⟩]
      (List.cons_ne_nil _ _)).2.1 "Streak"⟩

/-- C4: for a non-empty database id and any two dictionaries, the body of
the POST that `query_notion_database` sends is the flat key-wise union of
`filter` and `sorter`: its keys are exactly those present in either
argument, on a key present in `sorter` the sorter's value appears (so on a
collision the sorter silently wins), and on any other key the filter's
value appears. -/
theorem query_notion_database_body_union :
    ∀ (configKey api_key : Option String) (database_id : String)
      (filter sorter : List (String × PyVal)),
      database_id ≠ "" →
      (dictKeys filter).Nodup → (dictKeys sorter).Nodup →
      ∃ req : HttpRequest,
        query_notion_database configKey (some database_id) filter sorter api_key
            = .ok req ∧
        req.body = pyDictUnion filter sorter ∧
        (∀ k, k ∈ dictKeys req.body ↔ (k ∈ dictKeys filter ∨ k ∈ dictKeys sorter)) ∧
        (∀ k, k ∈ dictKeys sorter → dictLookup req.body k = dictLookup sorter k) ∧
        (∀ k, k ∉ dictKeys sorter → dictLookup req.body k = dictLookup filter k) := by
  intro ck ak id f s hid hf hs
  have htr : pyTruthyOptStr (some id) = true := by
    simp [pyTruthyOptStr, hid]
  have hl : ∀ k, dictLookup (pyDictUnion f s) k
      = oalt (dictLookup s k) (dictLookup f k) := by
    intro k
    have h1 : dictLookup (pyDictUnion f s) k
        = oalt (lastKV Prod.fst Prod.snd s k) (dictLookup f k) :=
      dictLookup_foldl_pyInsert Prod.fst Prod.snd s f k
    rw [h1, lastKV_eq_dictLookup_of_nodup s k hs]
  refine ⟨⟨"POST",
      build_url ("databases/" ++ pyRenderOptStr (some id) ++ "/query"),
      pyDictUnion f s, build_headers ck ak⟩, ?_, rfl, ?_, ?_, ?_⟩
  · simp only [query_notion_database, htr]
    rfl
  · intro k
    exact mem_dictKeys_foldl_pyInsert Prod.fst Prod.snd s f k
  · intro k hk
    obtain ⟨v, hv⟩ := dictLookup_isSome_of_mem s k hk
    rw [hl k, hv]
    rfl
  · intro k hk
    rw [hl k, dictLookup_eq_none_of_not_mem s k hk]
    rfl

/-- Witness for C4 at concrete inputs sharing the key `x`: the merged body
keeps the sorter's value on the shared key and the filter's value
elsewhere. -/
theorem query_notion_database_body_union_witness :
    ("db1" : String) ≠ "" ∧
    (dictKeys [("x", PyVal.vint 1), ("y", PyVal.vint 7)]).Nodup ∧
    (dictKeys [("x", PyVal.vint 2)]).Nodup ∧
    (∃ req : HttpRequest,
        query_notion_database none (some "db1")
            [("x", PyVal.vint 1), ("y", PyVal.vint 7)] [("x", PyVal.vint 2)] none
            = .ok req ∧
        req.body = pyDictUnion [("x", PyVal.vint 1), ("y", PyVal.vint 7)]
            [("x", PyVal.vint 2)] ∧
        (∀ k, k ∈ dictKeys req.body
            ↔ (k ∈ dictKeys [("x", PyVal.vint 1), ("y", PyVal.vint 7)]
                ∨ k ∈ dictKeys [("x", PyVal.vint 2)])) ∧
        (∀ k, k ∈ dictKeys [("x", PyVal.vint 2)] →
            dictLookup req.body k = dictLookup [("x", PyVal.vint 2)] k) ∧
        (∀ k, k ∉ dictKeys [("x", PyVal.vint 2)] →
            dictLookup req.body k
              = dictLookup [("x", PyVal.vint 1), ("y", PyVal.vint 7)] k)) :=
  ⟨by decide, by decide, by decide,
   query_notion_database_body_union none none "db1"
     [("x", PyVal.vint 1), ("y", PyVal.vint 7)] [("x", PyVal.vint 2)]
     (by decide) (by decide) (by decide)⟩

/-- C5: for an absent (`None`) or empty database id, `query_notion_database`
raises `ValueError` and the list of network calls it performs is empty. -/
theorem query_notion_database_empty_id :
    ∀ (configKey api_key : Option String) (filter sorter : List (String × PyVal))
      (database_id : Option String),
      (database_id = none ∨ database_id = some "") →
      query_notion_database configKey database_id filter sorter api_key
          = .error .valueError ∧
      query_network_calls configKey database_id filter sorter api_key = [] := by
  intro ck ak f s id_ h
  rcases h with h | h <;> subst h <;> exact ⟨rfl, rfl⟩

/-- Witness for C5 at the empty database id: `ValueError`, no network
call. -/
theorem query_notion_database_empty_id_witness :
    (some "" = (none : Option String) ∨ some "" = some "") ∧
    query_notion_database none (some "") [] [] none = .error .valueError ∧
    query_network_calls none (some "") [] [] none = [] :=
  ⟨Or.inr rfl, query_notion_database_empty_id none none [] [] (some "") (Or.inr rfl)⟩

/-- C6: `build_headers` always returns a mapping with exactly the keys
`Authorization`, `Notion-Version` and `Content-Type`; the authorization
value is `Bearer ` followed by the supplied (non-empty) `api_key`, and
otherwise by the process-wide configured key rendered as Python renders it
(an absent configured key is embedded, not rejected); and the redacted log
mapping `_log_headers` contains no `Authorization` entry at all. -/
theorem build_headers_spec :
    ∀ configKey api_key : Option String,
      dictKeys (build_headers configKey api_key)
          = ["Authorization", "Notion-Version", "Content-Type"] ∧
      (∀ s : String, api_key = some s → s ≠ "" →
        dictLookup (build_headers configKey api_key) "Authorization"
            = some ("Bearer " ++ s)) ∧
      (api_key = none →
        dictLookup (build_headers configKey api_key) "Authorization"
            = some ("Bearer " ++ pyRenderOptStr configKey)) ∧
      log_headers (build_headers configKey api_key)
          = [("Notion-Version", NOTION_VERSION),
             ("Content-Type", "application/json")] := by
  intro ck ak
  refine ⟨rfl, ?_, ?_, rfl⟩
  · intro s hs hne
    subst hs
    have h1 : pyOrOptStr (some s) ck = some s := by
      simp [pyOrOptStr, pyTruthyOptStr, hne]
    simp [build_headers, dictLookup, h1, pyRenderOptStr]
  · intro h
    subst h
    simp [build_headers, dictLookup, pyOrOptStr, pyTruthyOptStr]

/-- Witness for C6 at concrete keys: a supplied key overrides the
configured key, an absent argument falls back to the configured key, the
key list is the three fixed keys, and the log form drops `Authorization`. -/
theorem build_headers_spec_witness :
    dictKeys (build_headers (some "cfgkey") (some "userkey"))
        = ["Authorization", "Notion-Version", "Content-Type"] ∧
    dictLookup (build_headers (some "cfgkey") (some "userkey")) "Authorization"
        = some "Bearer userkey" ∧
    dictLookup (build_headers (some "cfgkey") none) "Authorization"
        = some "Bearer cfgkey" ∧
    log_headers (build_headers (some "cfgkey") (some "userkey"))
        = [("Notion-Version", "2022-06-28"),
           ("Content-Type", "application/json")] :=
  ⟨(build_headers_spec (some "cfgkey") (some "userkey")).1,
   (build_headers_spec (some "cfgkey") (some "userkey")).2.1 "userkey" rfl (by decide),
   (build_headers_spec (some "cfgkey") none).2.2.1 rfl,
   (build_headers_spec (some "cfgkey") (some "userkey")).2.2.2⟩

/-- C7: for a non-empty property name and either enumeration member,
`build_single_sorter` returns `{"sorts": [entry]}` with exactly one entry
carrying the property name and the lowercase member name of the direction
(`ascending` or `descending`). -/
theorem build_single_sorter_output :
    (∀ (property_name : String) (d : SortDirection), property_name ≠ "" →
      build_single_sorter property_name (.vsort d)
        = .ok (.vdict [("sorts", .vlist [.vdict
            [("property", .vstr property_name),
             ("direction", .vstr d.render)]])])) ∧
    SortDirection.render .ascending = "ascending" ∧
    SortDirection.render .descending = "descending" := by
  refine ⟨?_, rfl, rfl⟩
  intro pn d h
  have hb : (pn == "") = false := by simpa using h
  simp only [build_single_sorter, hb]
  rfl

/-- Witness for C7 at concrete inputs, both directions. -/
theorem build_single_sorter_output_witness :
    build_single_sorter "Name" (.vsort .ascending)
        = .ok (.vdict [("sorts", .vlist [.vdict
            [("property", .vstr "Name"),
             ("direction", .vstr "ascending")]])]) ∧
    build_single_sorter "Name" (.vsort .descending)
        = .ok (.vdict [("sorts", .vlist [.vdict
            [("property", .vstr "Name"),
             ("direction", .vstr "descending")]])]) :=
  ⟨build_single_sorter_output.1 "Name" .ascending (by decide),
   build_single_sorter_output.1 "Name" .descending (by decide)⟩

/-- C8: `build_single_sorter` checks the direction first: any value that is
not a `SortDirection` member raises `TypeError` whatever the property name
is (the empty name included), while a valid direction together with an
empty property name raises `ValueError`. -/
theorem build_single_sorter_validation :
    (∀ (property_name : String) (v : PyVal), v.isSortDirection = false →
      build_single_sorter property_name v = .error .typeError) ∧
    (∀ d : SortDirection,
      build_single_sorter "" (.vsort d) = .error .valueError) := by
  constructor
  · intro pn v hv
    cases v <;> try rfl
    simp [PyVal.isSortDirection] at hv
  · intro d
    rfl

/-- Witness for C8 at concrete inputs: `None` as direction raises
`TypeError` with a non-empty and with an empty property name; the empty
property name with a valid direction raises `ValueError`. -/
theorem build_single_sorter_validation_witness :
    build_single_sorter "property" .vnone = .error .typeError ∧
    build_single_sorter "" .vnone = .error .typeError ∧
    build_single_sorter "" (.vsort .ascending) = .error .valueError :=
  ⟨build_single_sorter_validation.1 "property" .vnone rfl,
   build_single_sorter_validation.1 "" .vnone rfl,
   build_single_sorter_validation.2 .ascending⟩

/-- C9: for a non-empty property name and a truthy value that is neither a
string nor a datetime, `build_equal_filter` does not raise and returns the
fragment whose inner dictionary has only the `property` key — no `date` and
no `rich_text` branch. -/
theorem build_equal_filter_unrecognized_kind :
    ∀ (property_name : String) (v : PyVal), property_name ≠ "" →
      v.truthy = true → v.isStr = false → v.isDatetime = false →
      build_equal_filter property_name v
        = .ok (.vdict [("filter", .vdict [("property", .vstr property_name)])]) := by
  intro pn v h htr hs hd
  have hb : (pn == "") = false := by simpa using h
  cases v with
  | vstr s => simp [PyVal.isStr] at hs
  | vdatetime d => simp [PyVal.isDatetime] at hd
  | vnone => simp [PyVal.truthy] at htr
  | vint n =>
      simp only [build_equal_filter, hb, htr]
      rfl
  | vbool b =>
      simp only [build_equal_filter, hb, htr]
      rfl
  | vsort d =>
      simp only [build_equal_filter, hb, htr]
      rfl
  | vdict dd =>
      simp only [build_equal_filter, hb, htr]
      rfl
  | vlist l =>
      simp only [build_equal_filter, hb, htr]
      rfl

/-- Witness for C9 at a concrete input: a non-zero integer value yields the
fragment with only the property set. -/
theorem build_equal_filter_unrecognized_kind_witness :
    build_equal_filter "Streak" (.vint 5)
        = .ok (.vdict [("filter", .vdict [("property", .vstr "Streak")])]) :=
  build_equal_filter_unrecognized_kind "Streak" (.vint 5) (by decide) rfl rfl rfl

/-- C10: `query_notion_database` does not mutate the dictionaries passed as
`filter` and `sorter`: in the heap view, after a call the heap cells of both
arguments are unchanged (the merged body lives in a freshly allocated
cell), and consequently an immediately repeated call with the same
arguments returns the same result — no state accumulates in the shared
default dictionaries. -/
theorem query_notion_database_no_mutation :
    ∀ (configKey api_key database_id : Option String) (fa sa : Nat)
      (st : DictHeap), fa < st.next → sa < st.next →
      (query_notion_database_heap configKey database_id fa sa st api_key).1.heap fa
          = st.heap fa ∧
      (query_notion_database_heap configKey database_id fa sa st api_key).1.heap sa
          = st.heap sa ∧
      (query_notion_database_heap configKey database_id fa sa
          (query_notion_database_heap configKey database_id fa sa st api_key).1
          api_key).2
        = (query_notion_database_heap configKey database_id fa sa st api_key).2 := by
  intro ck ak id_ fa sa st hfa hsa
  cases hb : pyTruthyOptStr id_ with
  | false =>
      simp only [query_notion_database_heap, hb]
      exact ⟨rfl, rfl, rfl⟩
  | true =>
      simp only [query_notion_database_heap, hb]
      refine ⟨?_, ?_, ?_⟩ <;>
        simp [Nat.ne_of_lt hfa, Nat.ne_of_lt hsa]

/-- Witness for C10 at a concrete heap with one allocated empty dict used
for both arguments. -/
theorem query_notion_database_no_mutation_witness :
    (0 : Nat) < 1 ∧
    (query_notion_database_heap none (some "db") 0 0 ⟨fun _ => [], 1⟩ none).1.heap 0
        = [] ∧
    (query_notion_database_heap none (some "db") 0 0 ⟨fun _ => [], 1⟩ none).1.heap 0
        = [] ∧
    (query_notion_database_heap none (some "db") 0 0
        (query_notion_database_heap none (some "db") 0 0 ⟨fun _ => [], 1⟩ none).1
        none).2
      = (query_notion_database_heap none (some "db") 0 0 ⟨fun _ => [], 1⟩ none).2 :=
  ⟨by decide,
   query_notion_database_no_mutation none none (some "db") 0 0 ⟨fun _ => [], 1⟩
     (by decide) (by decide)⟩

end Pynotion
